import Mathlib

/-!
Shallow embedding of the reVerb webview core: the Correlation Bridge and
message listener from reverb-vscode-webview/src/redux/reducers/inputStateSlice.js,
the Command Router from src/webview/ReverbPanel.ts, and the reducer-style
Request State Store with its request builder, all translated from the
JavaScript/TypeScript source.
-/

namespace Reverb

/-- Model of a JavaScript JSON-like runtime value.  Property order is
significant (JS objects preserve insertion order), so objects are ordered
association lists.  A missing property reads as `vUndefined`. -/
inductive JVal where
  | vUndefined
  | vNull
  | vBool (b : Bool)
  | vNum (n : Int)
  | vStr (s : String)
  | vArr (xs : List JVal)
  | vObj (fs : List (String × JVal))

/-- Truthiness of a JS value, as tested by `if (x)`:
undefined, null, false, 0 and the empty string are falsy. -/
def truthy : JVal → Bool
  | .vUndefined => false
  | .vNull => false
  | .vBool b => b
  | .vNum n => n != 0
  | .vStr s => s != ""
  | .vArr _ => true
  | .vObj _ => true

/-- Test for the JS value `undefined` (used by `x === undefined` checks). -/
def isUndef : JVal → Bool
  | .vUndefined => true
  | _ => false

/-- Test whether a value is a JS object (association list). -/
def isObj : JVal → Bool
  | .vObj _ => true
  | _ => false

/-- Equality test of a JS value against a string literal, as in
`x === "lit"`: true only when the value is that exact string. -/
def jeqStr (v : JVal) (s : String) : Bool :=
  match v with
  | .vStr t => t == s
  | _ => false

/-- Lookup of a field inside an association list of object fields. -/
def getField : List (String × JVal) → String → Option JVal
  | [], _ => none
  | (k, v) :: fs, key => if k = key then some v else getField fs key

/-- Property read `o.key`: the field value when present, else `undefined`
(property reads on non-objects also yield `undefined` in this model). -/
def jget (o : JVal) (key : String) : JVal :=
  match o with
  | .vObj fs => (getField fs key).getD .vUndefined
  | _ => .vUndefined

/-- Property write on a field list, as JS assignment `o.key = v`: if the key
is present its first binding is updated in place (keeping its position),
otherwise the new binding is appended. -/
def setField : List (String × JVal) → String → JVal → List (String × JVal)
  | [], key, v => [(key, v)]
  | (k, w) :: fs, key, v =>
      if k = key then (k, v) :: fs else (k, w) :: setField fs key v

/-- Property write `o.key = v` on a JS value; assignments to non-objects are
modelled as no-ops (the claims only exercise object-valued states). -/
def jset (o : JVal) (key : String) (v : JVal) : JVal :=
  match o with
  | .vObj fs => .vObj (setField fs key v)
  | _ => o

/-- Property deletion `delete o[key]`: removes every binding of the key
(JS objects hold each key at most once); no-op on non-objects. -/
def jdel (o : JVal) (key : String) : JVal :=
  match o with
  | .vObj fs => .vObj (fs.filter (fun p => p.1 ≠ key))
  | _ => o

/-! ## Correlation Bridge

From inputStateSlice.js lines 15-36: a module-level `PENDING_REQUESTS`
table maps generated request ids to the pending promise continuations, and
a window message listener settles them.  The table is modelled as an
association list from reqId strings to abstract future identifiers; the
promise continuations are modelled by recording which future got settled
and how. -/

/-- Pending-call table: reqId to the identifier of the future returned to
the caller.  JS object keys are unique, so well-formed tables have nodup
keys. -/
abbrev Table := List (String × Nat)

/-- Lookup `PENDING_REQUESTS[reqId]`. -/
def lookupReq : Table → String → Option Nat
  | [], _ => none
  | (k, f) :: t, r => if k = r then some f else lookupReq t r

/-- Deletion `delete PENDING_REQUESTS[reqId]` (removes the key if present). -/
def eraseReq (t : Table) (r : String) : Table :=
  t.filter (fun p => p.1 ≠ r)

/-- Inbound envelope as read by the listener: each field may be absent. -/
structure Envelope where
  reqId : Option String
  data : Option JVal
  err : Option JVal

/-- Truthiness of `message.reqId` (absent or empty string is falsy). -/
def truthyReqId (e : Envelope) : Bool :=
  match e.reqId with
  | some r => r != ""
  | none => false

/-- Truthiness of `message.data`. -/
def truthyData (e : Envelope) : Bool :=
  match e.data with
  | some d => truthy d
  | none => false

/-- Value of `message.data`, `undefined` when the field is absent. -/
def dataOf (e : Envelope) : JVal := e.data.getD .vUndefined

/-- Value of `message.err`, `undefined` when the field is absent. -/
def errOf (e : Envelope) : JVal := e.err.getD .vUndefined

/-- Value of `message.reqId` coerced for use as a lookup key. -/
def ridOf (e : Envelope) : String := e.reqId.getD ""

/-- How a pending future was settled. -/
inductive Settlement where
  | resolved (data : JVal)
  | rejected (err : JVal)

/-- Result of one run of the message listener: the table afterwards, the
future that was settled (if any) and how, and whether the handler threw a
TypeError. -/
structure HandleResult where
  table : Table
  settled : Option (Nat × Settlement)
  threw : Bool

/-- The window message listener, inputStateSlice.js lines 25-36.  When the
envelope bears a truthy `reqId`, the entry is looked up, deleted, and the
promise is resolved with `data` when `data` is truthy, else rejected with
`err`.  When the reqId is not in the table the lookup yields `undefined`
and calling `p.resolve` / `p.reject` throws a TypeError (the `delete` on
the absent key leaves the table unchanged). -/
def handleMessage (t : Table) (e : Envelope) : HandleResult :=
  if truthyReqId e then
    match lookupReq t (ridOf e) with
    | some fid =>
        { table := eraseReq t (ridOf e)
          settled := some (fid, if truthyData e then .resolved (dataOf e) else .rejected (errOf e))
          threw := false }
    | none =>
        { table := eraseReq t (ridOf e), settled := none, threw := true }
  else
    { table := t, settled := none, threw := false }

/-- Processing of a sequence of inbound envelopes, one listener run each;
collects the settlements in arrival order.  A throw in one listener run
does not stop later message events. -/
def processReplies (t : Table) : List Envelope → Table × List (Nat × Settlement)
  | [] => (t, [])
  | e :: es =>
      let r := handleMessage t e
      let rest := processReplies r.table es
      (rest.1, r.settled.toList ++ rest.2)

/-- A reply envelope that is well-formed with respect to a pending table:
it bears a truthy reqId that is in the table, and truthy data. -/
def goodReply (t : Table) (e : Envelope) : Bool :=
  truthyReqId e && (lookupReq t (ridOf e)).isSome && truthyData e

/-- Future settled by a reply, read off the initial table. -/
def fidOf (t : Table) (e : Envelope) : Nat :=
  (lookupReq t (ridOf e)).getD 0

/-! ## Command Router

From ReverbPanel.ts lines 63-146: the webview message handler switches on
`msg.payload.command`, dispatches the corresponding editor command, and in
the `.then` success continuation posts a reply envelope back.  No rejection
handler is installed anywhere, so a failed operation produces no reply.
The outcome of the dispatched privileged operation is abstracted as an
`Except`: `ok e` when its promise fulfills with `e`, `error err` when it
rejects. -/

/-- Reply envelope shape shared by every correlated command except
`savePreset`: original reqId and data `\x7bcommand, data: result\x7d`. -/
def mkReply (reqId command : String) (result : JVal) : JVal :=
  .vObj [("reqId", .vStr reqId), ("data", .vObj [("command", .vStr command), ("data", result)])]

/-- Reply that the Command Router posts for an inbound message with the
given reqId and command once the dispatched operation settles with the
given outcome; `none` when nothing is sent.  Translated case by case from
the switch in the ReverbPanel constructor. -/
def routerReply (reqId command : String) (outcome : Except JVal JVal) : Option JVal :=
  match command with
  | "dataObjects" =>
      match outcome with
      | .ok e => some (mkReply reqId "dataObjects" e)
      | .error _ => none
  | "parseServer" =>
      match outcome with
      | .ok e => some (mkReply reqId "parseServer" e)
      | .error _ => none
  | "deletePreset" =>
      match outcome with
      | .ok e => some (mkReply reqId "deletePreset" e)
      | .error _ => none
  | "wipeStorageObject" =>
      match outcome with
      | .ok e => some (mkReply reqId "wipeStorageObject" e)
      | .error _ => none
  | "savePreset" =>
      match outcome with
      | .ok e =>
          some (.vObj [("reqId", .vStr reqId),
            ("data", .vObj [("command", .vStr "savePreset"),
                            ("data", jget e "data"), ("preset", jget e "preset")])])
      | .error _ => none
  | "validatePort" =>
      match outcome with
      | .ok e => some (mkReply reqId "validatePort" e)
      | .error _ => none
  | "makeRequest" =>
      match outcome with
      | .ok e => some (mkReply reqId "makeRequest" e)
      | .error _ => none
  | "openTerminal" => none
  | "openFileInEditor" => none
  | _ => none

/-- The seven correlated commands: every inbound command of the router
except the two fire-and-forget ones (`openTerminal`, `openFileInEditor`). -/
def correlatedCommands : List String :=
  ["dataObjects", "parseServer", "deletePreset", "wipeStorageObject",
   "savePreset", "validatePort", "makeRequest"]

/-! ## Request State Store

From the `createSlice` in inputStateSlice.js lines 174-324: a single state
tree with synchronous reducers and completion reducers for the async
thunks.  Header and cookie entries are `\x7bkey, value\x7d` records of strings;
`headerState.headers` and `cookieState.cookies` are modelled directly as
the lists they wrap; `paramState` is an insertion-ordered JS object of
string values; `masterObject`, `requestResult` and `validPort` hold
whatever JSON the host sent, so they stay `JVal`. -/

/-- Header or cookie entry `\x7bkey, value\x7d` as produced by the UI inputs. -/
structure KV where
  key : String
  value : String

/-- The `urlState` field: either the sentinel string "default" or the
object obtained by `JSON.parse` of a url JSON payload. -/
inductive UrlState where
  | dflt
  | obj (u : JVal)

/-- The `presetState` field: either the sentinel string "default" or a
preset object. -/
inductive PresetState where
  | dflt
  | pres (p : JVal)

/-- The `inputs` subtree of the slice state. -/
structure Inputs where
  urlState : UrlState
  presetState : PresetState
  methodState : String
  headers : List KV
  cookies : List KV
  dataState : String
  paramState : List (String × String)

/-- The whole slice state. -/
structure InputState where
  inputs : Inputs
  masterObject : JVal
  requestResult : JVal
  validPort : JVal
  waiting : Bool
  loading : Bool

/-- Initial state of the slice (inputStateSlice.js lines 176-199). -/
def initialState : InputState :=
  { inputs :=
      { urlState := .dflt, presetState := .dflt, methodState := "",
        headers := [], cookies := [], dataState := "", paramState := [] }
    masterObject := .vObj [("domains", .vObj []), ("serverPaths", .vArr []), ("rootDirectory", .vStr "")]
    requestResult := .vObj []
    validPort := .vBool true
    waiting := false
    loading := true }

/-- Side effect emitted from inside a reducer (the `vscode.postMessage`
call embedded in `setUrlState`). -/
inductive SideEffect where
  | postMessage (payload : JVal)

/-- Helper `resetInputs` (inputStateSlice.js lines 156-172): returns the
inputs to their defaults, leaving `urlState` and `methodState` alone. -/
def resetInputs (st : InputState) : InputState :=
  { st with inputs :=
      { st.inputs with
          presetState := .dflt, headers := [], cookies := [],
          dataState := "", paramState := [] } }

/-- Reducer `setUrlState` (lines 201-212).  The action payload is a string;
"default" just installs the sentinel, anything else is `JSON.parse`d
(`parse` abstracts the host JSON parser), dependent fields are reset, the
parsed object becomes the new url, and an `openFileInEditor` message is
posted to the host. -/
def setUrlState (parse : String → JVal) (payload : String) (st : InputState) :
    InputState × List SideEffect :=
  if payload = "default" then
    ({ st with inputs := { st.inputs with urlState := .dflt } }, [])
  else
    let object := parse payload
    let st1 := resetInputs st
    let st2 := { st1 with inputs := { st1.inputs with urlState := .obj object } }
    (st2, [.postMessage (.vObj [("payload",
        .vObj [("command", .vStr "openFileInEditor"), ("data", jget object "filePath")])])])

/-- Count of headers whose key is exactly "Content-Type", as the `_headers`
counter in `setDataState` computes it (the `JSON.parse(JSON.stringify _)`
round-trip on the header list is the identity on this plain data). -/
def ctCount (hs : List KV) : Nat :=
  (hs.filter (fun h => h.key = "Content-Type")).length

/-- Reducer `setDataState` (lines 226-243): installs the new body, then,
when the new body is non-empty and no "Content-Type" header exists,
unshifts `\x7bkey: "Content-Type", value: "application/json"\x7d` onto the
header list. -/
def setDataState (payload : String) (st : InputState) : InputState :=
  let st1 := { st with inputs := { st.inputs with dataState := payload } }
  if st1.inputs.dataState.length > 0 ∧ ctCount st1.inputs.headers = 0 then
    { st1 with inputs := { st1.inputs with
        headers := ⟨"Content-Type", "application/json"⟩ :: st1.inputs.headers } }
  else st1

/-- Key under which `delete state.inputs.urlState.presets[id]` removes an
entry: JS coerces the computed property to a string, so a string id is
used as is, a numeric id prints in decimal, and reading `.id` off the
sentinel string "default" yields `undefined`, whose key form is the
string "undefined". -/
def presetIdKey : PresetState → String
  | .pres p =>
      match jget p "id" with
      | .vStr s => s
      | .vNum n => toString n
      | _ => "undefined"
  | .dflt => "undefined"

/-- Effect of `delete state.inputs.urlState.presets[id]` on the url state.
When the url is an object whose `presets` field is an object, the binding
for `id` is removed in place; when `presets` is not an object the JS
statement would throw a TypeError (not exercised by the claims), and with
the sentinel url the property read itself would throw. -/
def urlDeletePresets : UrlState → String → UrlState
  | .obj u, id =>
      match jget u "presets" with
      | .vObj fs => .obj (jset u "presets" (.vObj (fs.filter (fun p => p.1 ≠ id))))
      | _ => .obj u
  | .dflt, _ => .dflt

/-- Completion reducer `vscApi.fulfilled` (lines 289-301).  The action
payload is the reply data `\x7bcommand, data\x7d` echoed by the router.  Every
command other than `wipeStorageObject` replaces the MasterObject and
clears `loading`; `deletePreset` additionally resets the preset selection
to "default" and deletes the id of the currently selected preset from the
url's local preset map. -/
def vscApiFulfilled (st : InputState) (payload : JVal) : InputState :=
  let st1 :=
    if ¬ jeqStr (jget payload "command") "wipeStorageObject" then
      { st with masterObject := jget payload "data", loading := false }
    else st
  if jeqStr (jget payload "command") "deletePreset" then
    let id := presetIdKey st1.inputs.presetState
    { st1 with
        masterObject := jget payload "data"
        inputs := { st1.inputs with
            presetState := .dflt
            urlState := urlDeletePresets st1.inputs.urlState id } }
  else st1

/-- Round trip of a `deletePreset` call through `vscApi`: the thunk sends
`\x7bcommand: "deletePreset", data: presetRef\x7d` to the host; the host
replies with the updated MasterObject and the router echoes only the
command name and that object, so the completion reducer never sees
`presetRef` (which is why the argument is unused here, mirroring the
source). -/
def vscApiDeletePreset (st : InputState) (presetRef : String) (newMaster : JVal) : InputState :=
  vscApiFulfilled st (.vObj [("command", .vStr "deletePreset"), ("data", newMaster)])

/-- Completion reducer `getMasterObject.fulfilled` (lines 278-288): when
the reply data has no `domains` field only `serverPaths` and
`rootDirectory` of the cached MasterObject are overwritten (and `loading`
is untouched); otherwise the whole MasterObject is replaced and `loading`
is cleared. -/
def getMasterObjectFulfilled (st : InputState) (payload : JVal) : InputState :=
  let d := jget payload "data"
  if isUndef (jget d "domains") then
    let m1 := jset st.masterObject "serverPaths" (jget d "serverPaths")
    { st with masterObject := jset m1 "rootDirectory" (jget d "rootDirectory") }
  else
    { st with masterObject := d, loading := false }

/-! ## Request builder and the makeRequest thunk

From the `makeRequest` thunk, inputStateSlice.js lines 96-151. -/

/-- String content of a JS value that is expected to be a string (the
`pathname` and `href` fields of a parsed url object). -/
def strOf : JVal → String
  | .vStr s => s
  | _ => ""

/-- Replacement of the first occurrence of a pattern, as JS
`String.prototype.replace` with a string pattern does. -/
def replaceFirst (s pat repl : String) : String :=
  match s.splitOn pat with
  | [] => s
  | [_] => s
  | a :: rest => a ++ repl ++ String.intercalate pat rest

/-- Path-parameter substitution (lines 113-117): for each entry with a
non-empty value, the first occurrence of `:name` in the url object's
`pathname` field is replaced by the encoded value.  `enc` abstracts the
host `encodeURIComponent`.  Note that this mutates the url object held in
the state (the thunk writes through `getState`), and that `href` is not
recomputed. -/
def substParams (enc : String → String) (u : JVal) (ps : List (String × String)) : JVal :=
  ps.foldl
    (fun acc kv =>
      if kv.2.length > 0 then
        jset acc "pathname"
          (.vStr (replaceFirst (strOf (jget acc "pathname")) (":" ++ kv.1) (enc kv.2)))
      else acc)
    u

/-- Cookie assembly (lines 119-130): keep the cookies whose key and value
are both non-empty, each rendered as the literal string "key = value", in
input order with duplicates preserved. -/
def cookiesArray (cs : List KV) : List String :=
  (cs.filter (fun el => el.key ≠ "" && el.value ≠ "")).map
    (fun el => el.key ++ " = " ++ el.value)

/-- Header assembly (lines 132-138): entries with an empty key or value are
skipped, the rest are folded into a JS object by assignment (last write
wins on a duplicate key, the first write fixes the position). -/
def headersObject (hs : List KV) : List (String × JVal) :=
  hs.foldl
    (fun acc el =>
      if el.key = "" || el.value = "" then acc
      else setField acc el.key (.vStr el.value))
    []

/-- Merge (line 139): `cookie.length ? \x7b cookie, ...headersObject \x7d :
\x7b ...headersObject \x7d`.  Spreading after the `cookie` field assigns every
header field in order into an object that already holds `cookie`. -/
def mergedHeaders (hs cs : List KV) : List (String × JVal) :=
  let cookie := (cookiesArray cs).map JVal.vStr
  let hObj := headersObject hs
  if cookie.length ≠ 0 then
    hObj.foldl (fun acc kv => setField acc kv.1 kv.2) [("cookie", .vArr cookie)]
  else
    hObj

/-- The outbound request descriptor (lines 141-146). -/
structure RequestDescriptor where
  headers : List (String × JVal)
  baseURL : JVal
  method : String
  data : String

/-- Assembly of the request descriptor from the (already substituted) url
object and the inputs. -/
def buildRequest (u : JVal) (inp : Inputs) : RequestDescriptor :=
  { headers := mergedHeaders inp.headers inp.cookies
    baseURL := jget u "href"
    method := inp.methodState
    data := inp.dataState }

/-- Outcome of the bridge call issued by a thunk: its promise either
fulfills with the reply data or rejects. -/
inductive CallOutcome where
  | fulfilled (v : JVal)
  | rejected (e : JVal)

/-- Completion reducer `makeRequest.fulfilled` (lines 313-319): when the
thunk returned a payload (it returns `undefined` on the guard-clause
abort), the reply's `data` field is stored into `requestResult`; `waiting`
is cleared in both cases. -/
def makeRequestFulfilledRed (st : InputState) (payload : JVal) : InputState :=
  let st1 := if isUndef payload then st else { st with requestResult := jget payload "data" }
  { st1 with waiting := false }

/-- One full run of the `makeRequest` asynchronous transition given the
outcome of its bridge call: `setWaiting(true)` is dispatched, then either
the default-url guard aborts (dispatching `setWaiting(false)` and
returning `undefined`, so the fulfilled reducer runs with an undefined
payload and no bridge call is issued — the boolean result records whether
one was), or the path parameters are substituted into the url held in
state, the descriptor is sent, and on fulfillment the completion reducer
runs; no `makeRequest.rejected` reducer is installed in the slice, so a
rejected call changes nothing further. -/
def makeRequestRun (enc : String → String) (st : InputState) (outcome : CallOutcome) :
    InputState × Bool :=
  let st1 := { st with waiting := true }
  match st1.inputs.urlState with
  | .dflt =>
      let st2 := { st1 with waiting := false }
      (makeRequestFulfilledRed st2 .vUndefined, false)
  | .obj u =>
      let u1 := substParams enc u st1.inputs.paramState
      let st2 := { st1 with inputs := { st1.inputs with urlState := .obj u1 } }
      match outcome with
      | .fulfilled v => (makeRequestFulfilledRed st2 v, true)
      | .rejected _ => (st2, true)

/-- Preset map carried by a url state: the `presets` field of the url
object, `undefined` for the sentinel. -/
def urlPresets : UrlState → JVal
  | .obj u => jget u "presets"
  | .dflt => .vUndefined

/-! ## Helper lemmas -/

lemma length_pos_of_ne_empty {s : String} (h : s ≠ "") : s.length > 0 := by
  cases s with
  | mk data =>
    cases data with
    | nil => exact absurd rfl h
    | cons a as => simp [String.length]

lemma getField_setField_self (fs : List (String × JVal)) (k : String) (v : JVal) :
    getField (setField fs k v) k = some v := by
  induction fs with
  | nil => simp [setField, getField]
  | cons p fs ih =>
    by_cases h : p.1 = k
    · simp [setField, getField, h]
    · cases p with
      | mk k1 v1 => simp only at h; simp [setField, getField, h, ih]

lemma getField_setField_ne (fs : List (String × JVal)) {q k : String} (v : JVal)
    (h : q ≠ k) : getField (setField fs k v) q = getField fs q := by
  induction fs with
  | nil => simp [setField, getField, Ne.symm h]
  | cons p fs ih =>
    cases p with
    | mk k1 v1 =>
      by_cases h1 : k1 = k
      · subst h1; simp [setField, getField, Ne.symm h]
      · by_cases h2 : k1 = q <;> simp [setField, getField, h1, h2, h, ih]

lemma getField_filterKey_self (fs : List (String × JVal)) (k : String) :
    getField (fs.filter (fun p => p.1 ≠ k)) k = none := by
  simp only [ne_eq, decide_not]
  induction fs with
  | nil => simp [getField]
  | cons p fs ih =>
    rw [List.filter_cons]
    by_cases h : p.1 = k
    · simp [h, ih]
    · simp [getField, h, ih]

lemma getField_filterKey_ne (fs : List (String × JVal)) {q k : String} (h : q ≠ k) :
    getField (fs.filter (fun p => p.1 ≠ k)) q = getField fs q := by
  simp only [ne_eq, decide_not]
  induction fs with
  | nil => simp
  | cons p fs ih =>
    cases p with
    | mk k1 v1 =>
      rw [List.filter_cons]
      by_cases h1 : k1 = k
      · subst h1; simp [getField, Ne.symm h, ih]
      · by_cases h2 : k1 = q <;> simp [getField, h1, h2, h, ih]

lemma isObj_jset (o : JVal) (k : String) (v : JVal) : isObj (jset o k v) = isObj o := by
  cases o <;> simp [jset, isObj]

lemma jget_jset_self (o : JVal) (k : String) (v : JVal) (h : isObj o = true) :
    jget (jset o k v) k = v := by
  cases o <;> simp [isObj] at h
  simp [jset, jget, getField_setField_self]

lemma jget_jset_ne (o : JVal) {q k : String} (v : JVal) (h : q ≠ k) :
    jget (jset o k v) q = jget o q := by
  cases o <;> simp [jset, jget]
  rw [getField_setField_ne _ _ h]

lemma lookupReq_eraseReq_self (t : Table) (r : String) :
    lookupReq (eraseReq t r) r = none := by
  simp only [eraseReq, ne_eq, decide_not]
  induction t with
  | nil => simp [lookupReq]
  | cons p t ih =>
    rw [List.filter_cons]
    by_cases h : p.1 = r
    · simp [h, ih]
    · simp [lookupReq, h, ih]

lemma lookupReq_eraseReq_ne (t : Table) {q r : String} (h : q ≠ r) :
    lookupReq (eraseReq t r) q = lookupReq t q := by
  simp only [eraseReq, ne_eq, decide_not]
  induction t with
  | nil => simp
  | cons p t ih =>
    cases p with
    | mk k f =>
      rw [List.filter_cons]
      by_cases h1 : k = r
      · subst h1; simp [lookupReq, Ne.symm h, ih]
      · by_cases h2 : k = q <;> simp [lookupReq, h1, h2, h, ih]

lemma eraseReq_of_lookup_none (t : Table) (r : String)
    (h : lookupReq t r = none) : eraseReq t r = t := by
  induction t with
  | nil => rfl
  | cons p t ih =>
    cases p with
    | mk k f =>
      by_cases h1 : k = r
      · simp [lookupReq, h1] at h
      · simp only [lookupReq, if_neg h1] at h
        have ht := ih h
        simp only [eraseReq] at ht ⊢
        rw [List.filter_cons, if_pos (by simp [h1]), ht]

lemma mem_snd_of_lookupReq (t : Table) {r : String} {f : Nat}
    (h : lookupReq t r = some f) : f ∈ t.map Prod.snd := by
  induction t with
  | nil => simp [lookupReq] at h
  | cons p t ih =>
    by_cases h1 : p.1 = r
    · simp only [lookupReq, if_pos h1, Option.some.injEq] at h
      simp [h]
    · simp only [lookupReq, if_neg h1] at h
      simp [ih h]

lemma lookupReq_inj (t : Table) (hv : (t.map Prod.snd).Nodup) {r1 r2 : String} {f : Nat}
    (h1 : lookupReq t r1 = some f) (h2 : lookupReq t r2 = some f) : r1 = r2 := by
  induction t with
  | nil => simp [lookupReq] at h1
  | cons p t ih =>
    simp only [List.map_cons, List.nodup_cons] at hv
    by_cases e1 : p.1 = r1 <;> by_cases e2 : p.1 = r2
    · exact e1 ▸ e2
    · simp only [lookupReq, if_pos e1, Option.some.injEq] at h1
      simp only [lookupReq, if_neg e2] at h2
      exact absurd (h1 ▸ mem_snd_of_lookupReq t h2) hv.1
    · simp only [lookupReq, if_neg e1] at h1
      simp only [lookupReq, if_pos e2, Option.some.injEq] at h2
      exact absurd (h2 ▸ mem_snd_of_lookupReq t h1) hv.1
    · simp only [lookupReq, if_neg e1] at h1
      simp only [lookupReq, if_neg e2] at h2
      exact ih hv.2 h1 h2

/-! ## Claims about the Correlation Bridge listener (C2, C10) -/

/-- Claim C2 counterexample: an inbound envelope bearing a reqId that is
not in the (empty) in-flight table makes the listener throw a TypeError
(`p` is `undefined` and `p.resolve` is called on it) instead of being a
silent no-op. -/
theorem unmatched_reply_throws :
    (handleMessage [] ⟨some "stale-1", some (.vObj []), none⟩).threw = true := rfl

/-- Claim C2 (amended): processing an envelope whose reqId is not in the
in-flight table never changes the table and settles no future, but it is
silent only when the envelope has no (or an empty) reqId; with a nonempty
unmatched reqId the listener raises a TypeError. -/
theorem unmatched_reply_no_settlement (t : Table) (e : Envelope)
    (hmiss : lookupReq t (ridOf e) = none) :
    (truthyReqId e = false → handleMessage t e = ⟨t, none, false⟩) ∧
    (truthyReqId e = true → handleMessage t e = ⟨t, none, true⟩) := by
  constructor
  · intro hr; simp [handleMessage, hr]
  · intro hr; simp [handleMessage, hr, hmiss, eraseReq_of_lookup_none t _ hmiss]

/-- Concrete instantiation of the amended C2 theorem: a stale reply
against a one-entry table changes nothing, settles nothing, and throws. -/
theorem unmatched_reply_no_settlement_witness :
    lookupReq [("live-1", 0)] (ridOf ⟨some "stale-2", some (.vObj []), none⟩) = none ∧
    handleMessage [("live-1", 0)] ⟨some "stale-2", some (.vObj []), none⟩
      = ⟨[("live-1", 0)], none, true⟩ :=
  ⟨rfl, (unmatched_reply_no_settlement [("live-1", 0)] ⟨some "stale-2", some (.vObj []), none⟩ rfl).2 rfl⟩

/-- Claim C10 counterexample: an envelope whose `data` field is present
but falsy (here `false`) is not resolved with that data; the listener
rejects the future with the `err` field instead, because the code tests
`if (message.data)` (truthiness), not presence. -/
theorem present_falsy_data_rejected :
    (⟨some "req-7", some (.vBool false), some (.vStr "E")⟩ : Envelope).data.isSome = true ∧
    (handleMessage [("req-7", 3)] ⟨some "req-7", some (.vBool false), some (.vStr "E")⟩).settled
      = some (3, .rejected (.vStr "E")) :=
  ⟨rfl, rfl⟩

/-- Claim C10 (amended): for every inbound envelope whose (nonempty) reqId
is in the in-flight table, the listener removes that entry (lookups of the
reqId now fail, every other entry is untouched), throws nothing, and
resolves the pending future with the envelope data when that data is
truthy, rejecting it with the err field otherwise — so a present but
falsy data field (false, 0, the empty string, null) rejects. -/
theorem matched_reply_settles (t : Table) (e : Envelope) (fid : Nat)
    (hr : truthyReqId e = true) (hfid : lookupReq t (ridOf e) = some fid) :
    lookupReq (handleMessage t e).table (ridOf e) = none ∧
    (∀ q, q ≠ ridOf e → lookupReq (handleMessage t e).table q = lookupReq t q) ∧
    (handleMessage t e).threw = false ∧
    (truthyData e = true → (handleMessage t e).settled = some (fid, .resolved (dataOf e))) ∧
    (truthyData e = false → (handleMessage t e).settled = some (fid, .rejected (errOf e))) := by
  have htab : (handleMessage t e).table = eraseReq t (ridOf e) := by
    simp [handleMessage, hr, hfid]
  have hset : (handleMessage t e).settled = some (fid,
      if truthyData e then Settlement.resolved (dataOf e) else Settlement.rejected (errOf e)) := by
    simp [handleMessage, hr, hfid]
  have hthr : (handleMessage t e).threw = false := by
    simp [handleMessage, hr, hfid]
  refine ⟨?_, ?_, hthr, ?_, ?_⟩
  · rw [htab]; exact lookupReq_eraseReq_self t (ridOf e)
  · intro q hq; rw [htab]; exact lookupReq_eraseReq_ne t hq
  · intro hd; rw [hset, hd]; simp
  · intro hd; rw [hset, hd]; simp

/-! ## Claim C1: correlation uniqueness and order independence -/

lemma handleMessage_good (t : Table) (e : Envelope) (hg : goodReply t e = true) :
    handleMessage t e =
      ⟨eraseReq t (ridOf e), some (fidOf t e, .resolved (dataOf e)), false⟩ := by
  simp only [goodReply, Bool.and_eq_true] at hg
  obtain ⟨⟨hr, hsome⟩, hd⟩ := hg
  obtain ⟨f, hf⟩ := Option.isSome_iff_exists.mp hsome
  simp [handleMessage, hr, hf, hd, fidOf]

lemma processReplies_good (replies : List Envelope) :
    ∀ t : Table, (∀ e ∈ replies, goodReply t e = true) → (replies.map ridOf).Nodup →
      (processReplies t replies).2 =
        replies.map (fun e => (fidOf t e, Settlement.resolved (dataOf e))) ∧
      (∀ r ∈ replies.map ridOf, lookupReq (processReplies t replies).1 r = none) ∧
      (∀ r, r ∉ replies.map ridOf →
        lookupReq (processReplies t replies).1 r = lookupReq t r) := by
  induction replies with
  | nil =>
    intro t _ _
    exact ⟨rfl, by simp, fun r _ => rfl⟩
  | cons e es ih =>
    intro t hgood hdist
    have hge : goodReply t e = true := hgood e (List.mem_cons_self e es)
    have hstep := handleMessage_good t e hge
    simp only [List.map_cons, List.nodup_cons] at hdist
    have hlook : ∀ e2 ∈ es,
        lookupReq (eraseReq t (ridOf e)) (ridOf e2) = lookupReq t (ridOf e2) := by
      intro e2 he2
      refine lookupReq_eraseReq_ne t (fun hq => hdist.1 ?_)
      exact hq ▸ List.mem_map_of_mem ridOf he2
    have hgood2 : ∀ e2 ∈ es, goodReply (eraseReq t (ridOf e)) e2 = true := by
      intro e2 he2
      have hg2 := hgood e2 (List.mem_cons_of_mem e he2)
      simp only [goodReply, Bool.and_eq_true] at hg2 ⊢
      exact ⟨⟨hg2.1.1, by rw [hlook e2 he2]; exact hg2.1.2⟩, hg2.2⟩
    have ihh := ih (eraseReq t (ridOf e)) hgood2 hdist.2
    have hunfold1 : (processReplies t (e :: es)).1 =
        (processReplies (eraseReq t (ridOf e)) es).1 := by
      simp [processReplies, hstep]
    have hunfold2 : (processReplies t (e :: es)).2 =
        (fidOf t e, Settlement.resolved (dataOf e)) ::
          (processReplies (eraseReq t (ridOf e)) es).2 := by
      simp [processReplies, hstep]
    refine ⟨?_, ?_, ?_⟩
    · rw [hunfold2, ihh.1, List.map_cons]
      congr 1
      refine List.map_congr_left (fun e2 he2 => ?_)
      simp [fidOf, hlook e2 he2]
    · intro r hr
      rw [hunfold1]
      rcases List.mem_cons.mp hr with hr1 | hr2
      · by_cases hmem : r ∈ es.map ridOf
        · exact ihh.2.1 r hmem
        · rw [ihh.2.2 r hmem, hr1]
          exact lookupReq_eraseReq_self t (ridOf e)
      · exact ihh.2.1 r hr2
    · intro r hr
      rw [hunfold1]
      simp only [List.map_cons, List.mem_cons, not_or] at hr
      rw [ihh.2.2 r (by simpa using hr.2)]
      exact lookupReq_eraseReq_ne t hr.1

lemma mem_map_rid {replies : List Envelope} {r : String} (h : r ∈ replies.map ridOf) :
    ∃ e ∈ replies, ridOf e = r := by
  obtain ⟨e, he, hr⟩ := List.mem_map.mp h
  exact ⟨e, he, hr⟩

/-- Claim C1: for every in-flight table whose futures are pairwise
distinct, and every sequence of inbound reply envelopes bearing pairwise
distinct reqIds that are all pending (with truthy data), processing the
replies settles, for each reply in arrival order, exactly the future
registered under that reply reqId, resolved with that reply's own
payload — independent of the order the table entries were created; every
matched entry ends up removed from the table, every unmatched entry is
untouched, and no future occurs twice among the settlements. -/
theorem correlation_routes_replies (pend : Table) (replies : List Envelope)
    (hfuts : (pend.map Prod.snd).Nodup)
    (hgood : ∀ e ∈ replies, goodReply pend e = true)
    (hdist : (replies.map ridOf).Nodup) :
    (processReplies pend replies).2 =
      replies.map (fun e => (fidOf pend e, Settlement.resolved (dataOf e))) ∧
    (∀ r ∈ replies.map ridOf, lookupReq (processReplies pend replies).1 r = none) ∧
    (∀ r, r ∉ replies.map ridOf →
      lookupReq (processReplies pend replies).1 r = lookupReq pend r) ∧
    ((processReplies pend replies).2.map Prod.fst).Nodup := by
  obtain ⟨h1, h2, h3⟩ := processReplies_good replies pend hgood hdist
  refine ⟨h1, h2, h3, ?_⟩
  rw [h1, List.map_map]
  have heq : (Prod.fst ∘ fun e => (fidOf pend e, Settlement.resolved (dataOf e)))
      = fun e => (lookupReq pend (ridOf e)).getD 0 := rfl
  rw [heq]
  have hmm : replies.map (fun e => (lookupReq pend (ridOf e)).getD 0)
      = (replies.map ridOf).map (fun r => (lookupReq pend r).getD 0) := by
    rw [List.map_map]; rfl
  rw [hmm]
  refine List.Nodup.map_on ?_ hdist
  intro r1 hr1 r2 hr2 hval
  obtain ⟨e1, he1, hre1⟩ := mem_map_rid hr1
  obtain ⟨e2, he2, hre2⟩ := mem_map_rid hr2
  have hs1 : (lookupReq pend r1).isSome := by
    have := hgood e1 he1
    simp only [goodReply, Bool.and_eq_true] at this
    exact hre1 ▸ this.1.2
  have hs2 : (lookupReq pend r2).isSome := by
    have := hgood e2 he2
    simp only [goodReply, Bool.and_eq_true] at this
    exact hre2 ▸ this.1.2
  obtain ⟨f1, hf1⟩ := Option.isSome_iff_exists.mp hs1
  obtain ⟨f2, hf2⟩ := Option.isSome_iff_exists.mp hs2
  rw [hf1, hf2] at hval
  simp only [Option.getD_some] at hval
  exact lookupReq_inj pend hfuts hf1 (hval ▸ hf2)

/-- Pending table with two concurrent calls A then B. -/
def pendAB : Table := [("A", 0), ("B", 1)]

/-- Reply to call B, arriving first. -/
def replyB : Envelope := ⟨some "B", some (.vStr "payload-B"), none⟩

/-- Reply to call A, arriving second. -/
def replyA : Envelope := ⟨some "A", some (.vStr "payload-A"), none⟩

/-- Concrete instantiation of the C1 theorem, the reply-routing
independence scenario: calls A then B, replies B then A; B's future (1)
settles first with B's payload, A's future (0) second with A's payload,
both table entries are removed, and no future is settled twice. -/
theorem correlation_routes_replies_witness :
    (∀ e ∈ [replyB, replyA], goodReply pendAB e = true) ∧
    (processReplies pendAB [replyB, replyA]).2 =
      [(1, .resolved (.vStr "payload-B")), (0, .resolved (.vStr "payload-A"))] ∧
    lookupReq (processReplies pendAB [replyB, replyA]).1 "A" = none ∧
    ((processReplies pendAB [replyB, replyA]).2.map Prod.fst).Nodup := by
  have h := correlation_routes_replies pendAB [replyB, replyA]
    (by decide) (by decide) (by decide)
  exact ⟨by decide, by rw [h.1]; rfl, h.2.1 "A" (by decide), h.2.2.2⟩

/-- Concrete instantiation of the amended C10 theorem: a reply with truthy
data resolves the matching future with exactly that data and empties the
table. -/
theorem matched_reply_settles_witness :
    truthyReqId ⟨some "req-9", some (.vStr "payload"), none⟩ = true ∧
    lookupReq [("req-9", 5)] (ridOf ⟨some "req-9", some (.vStr "payload"), none⟩) = some 5 ∧
    (handleMessage [("req-9", 5)] ⟨some "req-9", some (.vStr "payload"), none⟩).settled
      = some (5, .resolved (.vStr "payload")) := by
  refine ⟨rfl, rfl, ?_⟩
  exact (matched_reply_settles [("req-9", 5)] ⟨some "req-9", some (.vStr "payload"), none⟩ 5
    rfl rfl).2.2.2.1 rfl

/-! ## Claim C3: Command Router reply discipline -/

/-- Claim C3 counterexample: when the dispatched operation of a correlated
command fails (its promise rejects), the router sends nothing at all —
every `.then` lacks a rejection handler — instead of the error payload the
claim requires. -/
theorem router_silent_on_failure :
    routerReply "r1" "makeRequest" (Except.error (.vStr "ECONNREFUSED")) = none := rfl

/-- Claim C3 (amended): for every inbound command except the two
fire-and-forget ones, when the dispatched operation succeeds the router
sends exactly one reply envelope bearing the original reqId, with data
`\x7bcommand, data: result\x7d` (for savePreset: data `result.data` plus
`preset: result.preset`); when the operation fails, no reply is sent. -/
theorem router_reply_shape (reqId command : String) (h : command ∈ correlatedCommands) :
    (∀ err, routerReply reqId command (.error err) = none) ∧
    (command ≠ "savePreset" →
      ∀ e, routerReply reqId command (.ok e) = some (mkReply reqId command e)) ∧
    (command = "savePreset" → ∀ e, routerReply reqId command (.ok e) =
      some (.vObj [("reqId", .vStr reqId), ("data", .vObj [("command", .vStr "savePreset"),
        ("data", jget e "data"), ("preset", jget e "preset")])])) := by
  simp only [correlatedCommands, List.mem_cons, List.not_mem_nil, or_false] at h
  rcases h with rfl | rfl | rfl | rfl | rfl | rfl | rfl
  case inl => exact ⟨fun _ => rfl, fun _ e => rfl, fun hq => absurd hq (by decide)⟩
  all_goals first
    | exact ⟨fun _ => rfl, fun _ e => rfl, fun hq => absurd hq (by decide)⟩
    | exact ⟨fun _ => rfl, fun hne => absurd rfl hne, fun _ e => rfl⟩

/-- Concrete instantiation of the amended C3 theorem: a successful
makeRequest operation produces exactly one reply of the stated shape. -/
theorem router_reply_shape_witness :
    "makeRequest" ∈ correlatedCommands ∧
    routerReply "r2" "makeRequest" (Except.ok (.vStr "R"))
      = some (mkReply "r2" "makeRequest" (.vStr "R")) := by
  refine ⟨by decide, ?_⟩
  exact (router_reply_shape "r2" "makeRequest" (by decide)).2.1 (by decide) (.vStr "R")

/-! ## Claim C4: the makeRequest asynchronous transition -/

/-- Url object used by the concrete scenarios. -/
def sampleUrl : JVal :=
  .vObj [("pathname", .vStr "/a"), ("href", .vStr "http://h/a"), ("presets", .vObj [])]

/-- State with a selected (non-default) url. -/
def sampleUrlState : InputState :=
  { initialState with inputs := { initialState.inputs with urlState := .obj sampleUrl } }

/-- Claim C4 counterexample: with a non-default url, a rejected bridge
call leaves `waiting` true — the slice installs no `makeRequest.rejected`
reducer, so `waiting` is not cleared on rejection as the claim states. -/
theorem rejected_call_keeps_waiting :
    ((makeRequestRun id sampleUrlState (.rejected (.vStr "network down"))).1).waiting
      = true := rfl

/-- Claim C4 (amended): the makeRequest transition first sets
`waiting=true`; with the default url sentinel it aborts — `waiting` is
cleared, no bridge call is issued, and every other field is left
unchanged; with a selected url, when the call fulfills with a
non-undefined payload the reply data is stored into `requestResult` and
`waiting` is cleared, but when the call is rejected no completion reducer
runs: `requestResult` keeps its old value and `waiting` stays true. -/
theorem makeRequest_transition (enc : String → String) (st : InputState)
    (outcome : CallOutcome) :
    (st.inputs.urlState = UrlState.dflt →
      makeRequestRun enc st outcome = ({ st with waiting := false }, false)) ∧
    (∀ u v, st.inputs.urlState = .obj u → outcome = .fulfilled v → isUndef v = false →
      ((makeRequestRun enc st outcome).1.requestResult = jget v "data" ∧
       (makeRequestRun enc st outcome).1.waiting = false ∧
       (makeRequestRun enc st outcome).2 = true)) ∧
    (∀ u err, st.inputs.urlState = .obj u → outcome = .rejected err →
      ((makeRequestRun enc st outcome).1.waiting = true ∧
       (makeRequestRun enc st outcome).1.requestResult = st.requestResult ∧
       (makeRequestRun enc st outcome).2 = true)) := by
  refine ⟨?_, ?_, ?_⟩
  · intro hd
    simp [makeRequestRun, hd, makeRequestFulfilledRed, isUndef]
  · intro u v hu ho hv
    subst ho
    simp [makeRequestRun, hu, makeRequestFulfilledRed, hv]
  · intro u err hu ho
    subst ho
    simp [makeRequestRun, hu]

/-- Concrete instantiation of the amended C4 theorem: a fulfilled call
stores the reply data and clears the waiting flag. -/
theorem makeRequest_transition_witness :
    sampleUrlState.inputs.urlState = UrlState.obj sampleUrl ∧
    isUndef (JVal.vObj [("data", .vStr "RES")]) = false ∧
    (makeRequestRun id sampleUrlState
      (.fulfilled (.vObj [("data", .vStr "RES")]))).1.requestResult = .vStr "RES" ∧
    (makeRequestRun id sampleUrlState
      (.fulfilled (.vObj [("data", .vStr "RES")]))).1.waiting = false := by
  have h := (makeRequest_transition id sampleUrlState
      (.fulfilled (.vObj [("data", .vStr "RES")]))).2.1
    sampleUrl (.vObj [("data", .vStr "RES")]) rfl rfl rfl
  exact ⟨rfl, rfl, h.1, h.2.1⟩

/-! ## Claim C5: Content-Type auto-insert in setDataState -/

/-- Claim C5: setDataState with a non-empty body and no existing header
keyed Content-Type prepends exactly one
`\x7bkey: Content-Type, value: application/json\x7d` header in the same
transition; when a Content-Type header already exists the header list
(hence its length) is unchanged. -/
theorem setDataState_content_type (st : InputState) (body : String) :
    (body ≠ "" → ctCount st.inputs.headers = 0 →
      (setDataState body st).inputs.headers =
        ⟨"Content-Type", "application/json"⟩ :: st.inputs.headers) ∧
    (ctCount st.inputs.headers ≠ 0 →
      (setDataState body st).inputs.headers = st.inputs.headers ∧
      ((setDataState body st).inputs.headers).length = st.inputs.headers.length) := by
  constructor
  · intro hb hct
    have hlen : body.length > 0 := length_pos_of_ne_empty hb
    simp [setDataState, hlen, hct]
  · intro hct
    have hco : ¬(body.length > 0 ∧ ctCount st.inputs.headers = 0) := fun hc => hct hc.2
    simp [setDataState, hco]

/-- Concrete instantiation of the C5 theorem at the spec test: an empty
header list and body "\x7b\x7d" yield exactly one Content-Type entry. -/
theorem setDataState_content_type_witness :
    ("\x7b\x7d" : String) ≠ "" ∧ ctCount initialState.inputs.headers = 0 ∧
    (setDataState "\x7b\x7d" initialState).inputs.headers
      = [⟨"Content-Type", "application/json"⟩] := by
  refine ⟨by decide, rfl, ?_⟩
  exact (setDataState_content_type initialState "\x7b\x7d").1 (by decide) rfl

/-! ## Claim C6: dependent reset on url change -/

/-- Claim C6: setUrlState with a non-default payload resets headers,
cookies, body, path params and preset selection to their defaults and
installs the parsed url object. -/
theorem setUrlState_resets (parse : String → JVal) (payload : String) (st : InputState)
    (hpay : payload ≠ "default")
    (hh : st.inputs.headers ≠ []) (hc : st.inputs.cookies ≠ [])
    (hb : st.inputs.dataState ≠ "") (hp : st.inputs.paramState ≠ []) :
    ((setUrlState parse payload st).1).inputs.headers = [] ∧
    ((setUrlState parse payload st).1).inputs.cookies = [] ∧
    ((setUrlState parse payload st).1).inputs.dataState = "" ∧
    ((setUrlState parse payload st).1).inputs.paramState = [] ∧
    ((setUrlState parse payload st).1).inputs.presetState = .dflt ∧
    ((setUrlState parse payload st).1).inputs.urlState = .obj (parse payload) := by
  simp [setUrlState, resetInputs, hpay]

/-- State with every dependent field populated. -/
def populatedState : InputState :=
  { initialState with inputs := { initialState.inputs with
      headers := [⟨"H", "1"⟩], cookies := [⟨"c", "v"⟩], dataState := "body",
      paramState := [("id", "5")],
      presetState := .pres (.vObj [("id", .vStr "p1")]) } }

/-- Concrete instantiation of the C6 theorem starting from a state with
non-empty headers, cookies, body and path params. -/
theorem setUrlState_resets_witness :
    populatedState.inputs.headers ≠ [] ∧ populatedState.inputs.dataState ≠ "" ∧
    ((setUrlState (fun _ => sampleUrl) "some-url-json" populatedState).1).inputs.headers = [] ∧
    ((setUrlState (fun _ => sampleUrl) "some-url-json" populatedState).1).inputs.dataState = "" ∧
    ((setUrlState (fun _ => sampleUrl) "some-url-json" populatedState).1).inputs.presetState
      = .dflt ∧
    ((setUrlState (fun _ => sampleUrl) "some-url-json" populatedState).1).inputs.urlState
      = .obj sampleUrl := by
  have h := setUrlState_resets (fun _ => sampleUrl) "some-url-json" populatedState
    (by decide) (by simp [populatedState]) (by simp [populatedState])
    (by simp [populatedState]) (by simp [populatedState])
  exact ⟨by simp [populatedState], by simp [populatedState],
    h.1, h.2.2.1, h.2.2.2.2.1, h.2.2.2.2.2⟩

/-! ## Claim C7: deletePreset completion -/

lemma exists_fields_of_isObj {v : JVal} (h : isObj v = true) :
    ∃ fs, v = .vObj fs := by
  cases v with
  | vObj fs => exact ⟨fs, rfl⟩
  | vUndefined => simp [isObj] at h
  | vNull => simp [isObj] at h
  | vBool b => simp [isObj] at h
  | vNum n => simp [isObj] at h
  | vStr s => simp [isObj] at h
  | vArr xs => simp [isObj] at h

/-- Url whose presets map holds the two presets p1 and p2. -/
def c7Url : JVal :=
  .vObj [("presets", .vObj [("p1", .vStr "P1"), ("p2", .vStr "P2")])]

/-- State where preset p2 is the current selection. -/
def c7State : InputState :=
  { initialState with inputs := { initialState.inputs with
      urlState := .obj c7Url,
      presetState := .pres (.vObj [("id", .vStr "p2")]) } }

/-- MasterObject returned by the host after the deletion. -/
def c7NewMaster : JVal := .vObj [("domains", .vObj [])]

/-- Claim C7 counterexample: deleting preset p1 while p2 is the current
selection removes p2 — the id read from `presetState` — from the url's
preset map and leaves the deleted p1 in place, contradicting the claim
that the deleted preset's id is removed for every call. -/
theorem deletePreset_removes_wrong_id :
    jget (urlPresets (vscApiDeletePreset c7State "p1" c7NewMaster).inputs.urlState) "p1"
      = .vStr "P1" ∧
    jget (urlPresets (vscApiDeletePreset c7State "p1" c7NewMaster).inputs.urlState) "p2"
      = .vUndefined := ⟨rfl, rfl⟩

/-- Claim C7 (amended): the vscApi completion reducer for deletePreset
replaces the MasterObject with the reply data, resets the preset selection
to "default", and removes from the url's preset map the id of the
*currently selected* preset (leaving every other key untouched) — which is
the deleted preset precisely when the deletion targets the current
selection. -/
theorem deletePreset_removes_current (st : InputState) (presetRef : String)
    (newMaster : JVal) (u : JVal) (hurl : st.inputs.urlState = .obj u)
    (hobj : isObj (jget u "presets") = true) :
    (vscApiDeletePreset st presetRef newMaster).masterObject = newMaster ∧
    (vscApiDeletePreset st presetRef newMaster).inputs.presetState = .dflt ∧
    jget (urlPresets (vscApiDeletePreset st presetRef newMaster).inputs.urlState)
      (presetIdKey st.inputs.presetState) = .vUndefined ∧
    (∀ k, k ≠ presetIdKey st.inputs.presetState →
      jget (urlPresets (vscApiDeletePreset st presetRef newMaster).inputs.urlState) k
        = jget (jget u "presets") k) := by
  obtain ⟨fs, hfs⟩ := exists_fields_of_isObj hobj
  have hou : ∃ gs, u = JVal.vObj gs := by
    cases u with
    | vObj gs => exact ⟨gs, rfl⟩
    | vUndefined => simp [jget] at hfs
    | vNull => simp [jget] at hfs
    | vBool b => simp [jget] at hfs
    | vNum n => simp [jget] at hfs
    | vStr s => simp [jget] at hfs
    | vArr xs => simp [jget] at hfs
  obtain ⟨gs, rfl⟩ := hou
  have hres : vscApiDeletePreset st presetRef newMaster = { st with masterObject := newMaster, loading := false, inputs := { st.inputs with presetState := .dflt, urlState := urlDeletePresets st.inputs.urlState (presetIdKey st.inputs.presetState) } } := rfl
  have hdel : urlDeletePresets st.inputs.urlState (presetIdKey st.inputs.presetState) =
      .obj (jset (.vObj gs) "presets"
        (.vObj (fs.filter (fun p => p.1 ≠ presetIdKey st.inputs.presetState)))) := by
    rw [hurl]
    simp only [urlDeletePresets, hfs]
  have hpre : urlPresets (vscApiDeletePreset st presetRef newMaster).inputs.urlState =
      .vObj (fs.filter (fun p => p.1 ≠ presetIdKey st.inputs.presetState)) := by
    rw [hres]
    show urlPresets (urlDeletePresets st.inputs.urlState (presetIdKey st.inputs.presetState))
      = _
    rw [hdel]
    show jget (jset (.vObj gs) "presets" _) "presets" = _
    exact jget_jset_self _ _ _ rfl
  refine ⟨by rw [hres], by rw [hres], ?_, ?_⟩
  · rw [hpre]
    show (getField (fs.filter (fun p => p.1 ≠ presetIdKey st.inputs.presetState))
      (presetIdKey st.inputs.presetState)).getD .vUndefined = .vUndefined
    rw [getField_filterKey_self]
    rfl
  · intro k hk
    rw [hpre, hfs]
    show (getField (fs.filter (fun p => p.1 ≠ presetIdKey st.inputs.presetState)) k).getD
        .vUndefined = (getField fs k).getD .vUndefined
    rw [getField_filterKey_ne fs hk]

/-- Concrete instantiation of the amended C7 theorem where the deleted
preset is the current selection (p2): its key disappears from the url's
preset map, the selection resets, and the MasterObject is replaced. -/
theorem deletePreset_removes_current_witness :
    c7State.inputs.urlState = UrlState.obj c7Url ∧
    (vscApiDeletePreset c7State "p2" c7NewMaster).masterObject = c7NewMaster ∧
    (vscApiDeletePreset c7State "p2" c7NewMaster).inputs.presetState = .dflt ∧
    jget (urlPresets (vscApiDeletePreset c7State "p2" c7NewMaster).inputs.urlState) "p2"
      = .vUndefined := by
  have h := deletePreset_removes_current c7State "p2" c7NewMaster c7Url rfl rfl
  exact ⟨rfl, h.1, h.2.1, h.2.2.1⟩

/-! ## Claim C8: two-phase catalog merge in getMasterObject -/

/-- Claim C8: when the getMasterObject reply data lacks a domains field,
only the serverPaths and rootDirectory fields of the cached MasterObject
are replaced (every other field keeps its value) and loading remains
true; when a domains field is present the whole MasterObject is replaced
and loading becomes false. -/
theorem getMasterObject_merge (st : InputState) (payload : JVal)
    (hobj : isObj st.masterObject = true) (hload : st.loading = true) :
    (isUndef (jget (jget payload "data") "domains") = true →
      (getMasterObjectFulfilled st payload).loading = true ∧
      jget (getMasterObjectFulfilled st payload).masterObject "serverPaths"
        = jget (jget payload "data") "serverPaths" ∧
      jget (getMasterObjectFulfilled st payload).masterObject "rootDirectory"
        = jget (jget payload "data") "rootDirectory" ∧
      (∀ k, k ≠ "serverPaths" → k ≠ "rootDirectory" →
        jget (getMasterObjectFulfilled st payload).masterObject k
          = jget st.masterObject k)) ∧
    (isUndef (jget (jget payload "data") "domains") = false →
      (getMasterObjectFulfilled st payload).masterObject = jget payload "data" ∧
      (getMasterObjectFulfilled st payload).loading = false) := by
  constructor
  · intro hu
    have hred : getMasterObjectFulfilled st payload =
        { st with masterObject := jset (jset st.masterObject "serverPaths" (jget (jget payload "data") "serverPaths")) "rootDirectory" (jget (jget payload "data") "rootDirectory") } := by
      simp [getMasterObjectFulfilled, hu]
    rw [hred]
    refine ⟨hload, ?_, ?_, ?_⟩
    · rw [jget_jset_ne _ _ (by decide)]
      exact jget_jset_self _ _ _ hobj
    · refine jget_jset_self _ _ _ ?_
      rw [isObj_jset]
      exact hobj
    · intro k hk1 hk2
      rw [jget_jset_ne _ _ hk2, jget_jset_ne _ _ hk1]
  · intro hu
    simp [getMasterObjectFulfilled, hu]

/-- Partial-catalog reply of the spec scenario: server paths and root
directory only, no domains field. -/
def partialPayload : JVal :=
  .vObj [("data", .vObj [("serverPaths", .vArr [.vStr "/x"]),
                         ("rootDirectory", .vStr "/root")])]

/-- Concrete instantiation of the C8 theorem at the spec scenario: after
a partial-catalog reply, serverPaths and rootDirectory are merged and
loading is still true. -/
theorem getMasterObject_merge_witness :
    isObj initialState.masterObject = true ∧ initialState.loading = true ∧
    (getMasterObjectFulfilled initialState partialPayload).loading = true ∧
    jget (getMasterObjectFulfilled initialState partialPayload).masterObject "serverPaths"
      = .vArr [.vStr "/x"] ∧
    jget (getMasterObjectFulfilled initialState partialPayload).masterObject "rootDirectory"
      = .vStr "/root" := by
  have h := (getMasterObject_merge initialState partialPayload rfl rfl).1 rfl
  exact ⟨rfl, rfl, h.1, h.2.1, h.2.2.1⟩

/-! ## Claim C9: cookie assembly in the request builder -/

lemma cookiesArray_eq_filterMap (cs : List KV) :
    cookiesArray cs = cs.filterMap
      (fun el => if el.key ≠ "" ∧ el.value ≠ "" then some (el.key ++ " = " ++ el.value)
                 else none) := by
  induction cs with
  | nil => rfl
  | cons c cs ih =>
    simp only [cookiesArray, ne_eq, decide_not, List.filter_cons, List.filterMap_cons] at ih ⊢
    by_cases hk : c.key = ""
    · simp [hk, ih]
    · by_cases hv : c.value = ""
      · simp [hk, hv, ih]
      · simp [hk, hv, ih]

lemma getField_headersObject_none (hs : List KV) {k : String}
    (h : ∀ x ∈ hs, x.key ≠ k) : getField (headersObject hs) k = none := by
  suffices hgen : ∀ acc : List (String × JVal),
      getField (hs.foldl (fun acc el => if el.key = "" || el.value = "" then acc
        else setField acc el.key (.vStr el.value)) acc) k = getField acc k by
    exact hgen []
  induction hs with
  | nil => intro acc; rfl
  | cons x hs ih =>
    intro acc
    rw [List.foldl_cons]
    by_cases hx : (x.key = "" || x.value = "") = true
    · rw [if_pos hx]
      exact ih (fun y hy => h y (List.mem_cons_of_mem x hy)) acc
    · rw [if_neg hx]
      rw [ih (fun y hy => h y (List.mem_cons_of_mem x hy)) (setField acc x.key (.vStr x.value))]
      exact getField_setField_ne acc _ (Ne.symm (h x (List.mem_cons_self x hs)))

/-- Claim C9 counterexample: with an empty cookie list (so no cookie
survives the filtering) but a header whose key is literally "cookie", the
merged headers object does contain a cookie key — it comes from the
header fold, not from the cookie assembly — contradicting the claim that
no cookie key is present at all. -/
theorem cookie_key_from_header :
    cookiesArray ([] : List KV) = [] ∧
    getField (mergedHeaders [⟨"cookie", "x"⟩] []) "cookie" = some (.vStr "x") :=
  ⟨rfl, rfl⟩

/-- Claim C9 (amended): the cookie list of the built request consists of
exactly the input cookies whose key and value are both non-empty, each
rendered as the literal string "key = value", in input order with
duplicates preserved; when no cookie survives the filtering (including an
empty cookie list) the cookie assembly adds no cookie key — the merged
headers equal the folded header map, so a cookie key is present only when
the input header list itself contains a header keyed "cookie". -/
theorem cookie_assembly (hs cs : List KV) :
    cookiesArray cs = cs.filterMap
      (fun el => if el.key ≠ "" ∧ el.value ≠ "" then some (el.key ++ " = " ++ el.value)
                 else none) ∧
    (cookiesArray cs = [] → mergedHeaders hs cs = headersObject hs) ∧
    (cookiesArray cs = [] → (∀ x ∈ hs, x.key ≠ "cookie") →
      getField (mergedHeaders hs cs) "cookie" = none) := by
  refine ⟨cookiesArray_eq_filterMap cs, ?_, ?_⟩
  · intro hck
    simp [mergedHeaders, hck]
  · intro hck hnk
    have hme : mergedHeaders hs cs = headersObject hs := by simp [mergedHeaders, hck]
    rw [hme]
    exact getField_headersObject_none hs hnk

/-- Concrete instantiation of the C9 theorem: one valid cookie renders as
"a = b"; and with a fully filtered cookie list and ordinary headers the
merged headers carry no cookie key. -/
theorem cookie_assembly_witness :
    cookiesArray [⟨"a", "b"⟩] = ["a = b"] ∧
    cookiesArray [⟨"", "v"⟩] = [] ∧
    mergedHeaders [⟨"H", "1"⟩] [⟨"", "v"⟩] = headersObject [⟨"H", "1"⟩] ∧
    getField (mergedHeaders [⟨"H", "1"⟩] [⟨"", "v"⟩]) "cookie" = none := by
  have h := cookie_assembly [⟨"H", "1"⟩] [⟨"", "v"⟩]
  exact ⟨rfl, rfl, h.2.1 rfl, h.2.2 rfl (by decide)⟩

end Reverb
